import Mathlib

/-!
Shallow embedding of `pkg/gits/gitea.go`, the Gitea backend adapter of the
provider-neutral `GitProvider` abstraction, together with theorems settling
the specification claims about it.

Modelling conventions:
* Backend (`gitea.Client`) calls are modelled as oracle parameters: each call
  site receives the value the Go client call would have returned, as a pair or
  triple mirroring the Go multiple return values (`result`, `response`,
  `error`).  Pointers become `Option`, Go `error` becomes `Option String`
  (holding the error text), HTTP responses are reduced to their status code
  (`Option Nat`).
* Go zero values are the Lean default field values.
* `time.Time` values are modelled as `Int` timestamps; their internal
  structure is irrelevant to every claim.
* Go `fmt` `%#v` struct dumps inside error messages are abstracted away:
  only the fixed message prefix is kept (no claim inspects the dump).
-/

namespace Gits

/-- Neutral repository model (`GitRepository` of the jx `gits` package),
restricted to the fields this file touches. -/
structure GitRepository where
  AllowMergeCommit : Bool := false
  Archived : Bool := false
  CloneURL : String := ""
  Fork : Bool := false
  HTMLURL : String := ""
  HasIssues : Bool := false
  HasProjects : Bool := false
  HasWiki : Bool := false
  ID : Int := 0
  Name : String := ""
  OpenIssueCount : Int := 0
  Private : Bool := false
  SSHURL : String := ""
  Stars : Int := 0
  deriving DecidableEq, Inhabited

/-- Backend-native repository object (`gitea.Repository`), restricted to the
fields read by `toGiteaRepo`. -/
structure GiteaRepository where
  Archived : Bool := false
  CloneURL : String := ""
  Fork : Bool := false
  HTMLURL : String := ""
  HasIssues : Bool := false
  HasProjects : Bool := false
  HasWiki : Bool := false
  ID : Int := 0
  Name : String := ""
  OpenIssues : Int := 0
  Private : Bool := false
  SSHURL : String := ""
  Stars : Int := 0
  deriving DecidableEq, Inhabited

/-- Embedding of `toGiteaRepo` (gitea.go lines 182-199): converts a
backend-native repository into the neutral model, taking the `Name` from the
separately supplied `name` argument. -/
def toGiteaRepo (name : String) (repo : GiteaRepository) : GitRepository :=
  { AllowMergeCommit := true
    Archived := repo.Archived
    CloneURL := repo.CloneURL
    Fork := repo.Fork
    HTMLURL := repo.HTMLURL
    HasIssues := repo.HasIssues
    HasProjects := repo.HasProjects
    HasWiki := repo.HasWiki
    ID := repo.ID
    Name := name
    OpenIssueCount := repo.OpenIssues
    Private := repo.Private
    SSHURL := repo.SSHURL
    Stars := repo.Stars }

/-! ### CreateRepository (C1) -/

/-- Embedding of `gitea.CreateRepoOption` as used by `CreateRepository`. -/
structure CreateRepoOption where
  Name : String := ""
  Private : Bool := false
  deriving DecidableEq, Inhabited

/-- Ghost trace entry recording which backend create call was issued. -/
inductive CreateCall where
  | orgRepo (org : String) (opts : CreateRepoOption)
  | userRepo (opts : CreateRepoOption)
  deriving DecidableEq

/-- Embedding of `CreateRepository` (gitea.go lines 140-159).  The two client
calls are oracle parameters; besides the Go-visible result the definition
returns the ghost list of backend create calls actually issued, in order.
The source assigns `repo, _, err = p.Client.CreateOrgRepo(org, options)` under
`if len(org) != 0`, and then unconditionally re-assigns
`repo, _, err = p.Client.CreateRepo(options)`, discarding the org-scoped
result; the embedding mirrors that exactly. -/
def createRepository
    (createOrgRepo : String → CreateRepoOption → Option GiteaRepository × Option String)
    (createRepo : CreateRepoOption → Option GiteaRepository × Option String)
    (org name : String) (priv : Bool) :
    Except String GitRepository × List CreateCall :=
  let options : CreateRepoOption := { Name := name, Private := priv }
  let calls0 : List CreateCall :=
    if org.length ≠ 0 then
      let _ := createOrgRepo org options
      [CreateCall.orgRepo org options]
    else []
  let res := createRepo options
  let calls := calls0 ++ [CreateCall.userRepo options]
  match res.2 with
  | some e =>
      (Except.error ("Failed to create repository " ++ org ++ "/" ++ name ++ " due to: " ++ e),
       calls)
  | none => (Except.ok (toGiteaRepo name (res.1.getD default)), calls)

/-- Concrete repository as the org-scoped create call would return it. -/
def wOrgSideRepo : GiteaRepository := { Name := "org-side", ID := 1 }

/-- Concrete repository as the user-scoped create call would return it. -/
def wUserSideRepo : GiteaRepository := { Name := "user-side", ID := 2 }

/-! ### ListRepositories (C9) -/

/-- Embedding of `ListRepositories` (gitea.go lines 65-85).  The two client
list calls are oracle parameters; for `org == ""` the user-scoped listing is
used, otherwise the org-scoped one.  Each backend repository `repo` is
converted with `toGiteaRepo repo.Name repo`, i.e. the supplied name is the
backend object's own `Name` field. -/
def listRepositories
    (listMyRepos : List GiteaRepository × Option String)
    (listOrgRepos : List GiteaRepository × Option String)
    (org : String) : List GitRepository × Option String :=
  if org = "" then
    match listMyRepos.2 with
    | some e => ([], some e)
    | none => (listMyRepos.1.map (fun repo => toGiteaRepo repo.Name repo), none)
  else
    match listOrgRepos.2 with
    | some e => ([], some e)
    | none => (listOrgRepos.1.map (fun repo => toGiteaRepo repo.Name repo), none)

/-- Concrete backend repository whose native object omits the name. -/
def wNoNameRepo : GiteaRepository := { Name := "", CloneURL := "http://git.example/r.git", ID := 7 }

/-! ### ListCommitStatus and PullRequestLastCommitStatus (C7, C8) -/

/-- Backend-native commit status (`gitea.Status`), restricted to the fields
this file reads. -/
structure GiteaStatus where
  ID : Int := 0
  State : String := ""
  Context : String := ""
  URL : String := ""
  TargetURL : String := ""
  Description : String := ""
  deriving DecidableEq, Inhabited

/-- Neutral commit status model (`GitRepoStatus`). -/
structure GitRepoStatus where
  ID : String := ""
  Context : String := ""
  URL : String := ""
  TargetURL : String := ""
  State : String := ""
  Description : String := ""
  deriving DecidableEq, Inhabited

/-- Message built by both `PullRequestLastCommitStatus` and `ListCommitStatus`
when no status can be produced (gitea.go lines 578 and 608). -/
def statusNotFoundMsg (owner repo ref : String) : String :=
  "Could not find a status for repository " ++ owner ++ "/" ++ repo ++ " with ref " ++ ref

/-- Embedding of `ListCommitStatus` (gitea.go lines 604-622).  The client
`ListStatuses` call is an oracle parameter.  On any backend error the answer
is the empty list plus the fixed "could not find a status" message; the
underlying error value is dropped. -/
def listCommitStatus (listStatuses : List GiteaStatus × Option String)
    (org repo sha : String) : List GitRepoStatus × Option String :=
  match listStatuses.2 with
  | some _ => ([], some (statusNotFoundMsg org repo sha))
  | none =>
      (listStatuses.1.map (fun result =>
        { ID := toString result.ID
          Context := result.Context
          URL := result.URL
          TargetURL := result.TargetURL
          State := result.State
          Description := result.Description }), none)

/-! ### GetIssue (C6) -/

/-- Backend-native label (`gitea.Label`). -/
structure GiteaLabel where
  Name : String := ""
  Color : String := ""
  URL : String := ""
  deriving DecidableEq, Inhabited

/-- Neutral label model (`GitLabel`). -/
structure GitLabel where
  Name : String := ""
  Color : String := ""
  URL : String := ""
  deriving DecidableEq, Inhabited

/-- Backend-native user (`gitea.User`), restricted to the fields read here. -/
structure GiteaUser where
  UserName : String := ""
  FullName : String := ""
  Email : String := ""
  AvatarURL : String := ""
  deriving DecidableEq, Inhabited

/-- Neutral user model (`GitUser`). -/
structure GitUser where
  URL : String := ""
  Login : String := ""
  Name : String := ""
  Email : String := ""
  AvatarURL : String := ""
  deriving DecidableEq, Inhabited

/-- Backend-native issue (`gitea.Issue`), restricted to the fields read by
`fromGiteaIssue`.  The `PullRequest` pointer is modelled as `Option Unit`
since only its nil-ness is inspected. -/
structure GiteaIssue where
  ID : Int := 0
  State : String := ""
  Labels : List GiteaLabel := []
  Assignees : List GiteaUser := []
  Title : String := ""
  Body : String := ""
  PullRequest : Option Unit := none
  Poster : GiteaUser := {}
  Created : Int := 0
  Updated : Int := 0
  Closed : Option Int := none
  deriving DecidableEq, Inhabited

/-- Neutral issue model (`GitIssue`), restricted to the fields set here. -/
structure GitIssue where
  Number : Option Int := none
  URL : String := ""
  State : Option String := none
  Title : String := ""
  Body : String := ""
  IsPullRequest : Bool := false
  Labels : List GitLabel := []
  User : Option GitUser := none
  Assignees : List GitUser := []
  CreatedAt : Option Int := none
  UpdatedAt : Option Int := none
  ClosedAt : Option Int := none
  deriving DecidableEq, Inhabited

/-- Embedding of Go `strings.Contains` / non-negative `strings.Index`:
substring occurrence over the character lists. -/
def listContainsSub (pat : List Char) : List Char → Bool
  | [] => pat.isEmpty
  | c :: cs => pat.isPrefixOf (c :: cs) || listContainsSub pat cs

/-- String-level substring test, mirroring `strings.Contains(s, pat)`. -/
def strContains (s pat : String) : Bool :=
  listContainsSub pat.data s.data

/-- Modelled from the spec: `util.UrlJoin` is declared outside this file
(pkg/util); the spec gives no detail beyond joining URL path segments, so it
is modelled as slash-intercalation.  No claim depends on its internals. -/
def urlJoin (xs : List String) : String :=
  String.intercalate "/" xs

/-- Embedding of `IssueURL` (gitea.go lines 443-454): prepends `https://` when
the server URL carries no scheme separator, then joins the path segments. -/
def issueURL (serverURL org name : String) (number : Int) (isPull : Bool) : String :=
  let serverPrefix := if strContains serverURL "://" then serverURL else "https://" ++ serverURL
  let path := if isPull then "pulls" else "issues"
  urlJoin [serverPrefix, org, name, path, toString number]

/-- Embedding of `toGiteaLabel` (gitea.go lines 533-539). -/
def toGiteaLabelFn (label : GiteaLabel) : GitLabel :=
  { Name := label.Name, Color := label.Color, URL := label.URL }

/-- Embedding of `toGiteaUser` (gitea.go lines 541-549). -/
def toGiteaUserFn (serverURL : String) (user : GiteaUser) : GitUser :=
  { URL := serverURL ++ "/" ++ user.UserName
    Login := user.UserName
    Name := user.FullName
    Email := user.Email
    AvatarURL := user.AvatarURL }

/-- Embedding of `fromGiteaIssue` (gitea.go lines 494-519).  The Go function
also returns an error value, which is always nil; the embedding returns the
issue alone. -/
def fromGiteaIssue (serverURL org name : String) (i : GiteaIssue) : GitIssue :=
  let state := i.State
  let labels := i.Labels.map toGiteaLabelFn
  let assignees := i.Assignees.map (toGiteaUserFn serverURL)
  let number := i.ID
  { Number := some number
    URL := issueURL serverURL org name number false
    State := some state
    Title := i.Title
    Body := i.Body
    IsPullRequest := i.PullRequest.isSome
    Labels := labels
    User := some (toGiteaUserFn serverURL i.Poster)
    Assignees := assignees
    CreatedAt := some i.Created
    UpdatedAt := some i.Updated
    ClosedAt := i.Closed }

/-- Embedding of `GetIssue` (gitea.go lines 432-441).  The client `GetIssue`
call is an oracle triple (issue pointer, response status code, error). -/
def getIssue (serverURL : String)
    (get : Option GiteaIssue × Option Nat × Option String)
    (org name : String) : Option GitIssue × Option String :=
  match get.2.2 with
  | some e =>
      if get.2.1 = some 404 then (none, none) else (none, some e)
  | none => (some (fromGiteaIssue serverURL org name (get.1.getD default)), none)

/-! ### ForkRepository (C2) -/

/-- Rendering of a possibly-nil Go error value inside a format string (Go
prints a placeholder for a nil error; the exact text is immaterial to every
claim). -/
def errString : Option String → String
  | some s => s
  | none => "%!s(<nil>)"

/-- Success test of one `GetRepo` poll attempt, mirroring
`repo != nil && err == nil` (gitea.go line 223). -/
def pollSuccess (res : Option GiteaRepository × Option String) : Bool :=
  res.1.isSome && res.2.isNone

/-- Embedding of the fork wait loop of `ForkRepository` (gitea.go lines
218-229).  Time is mocked: attempt `k` (counting from 0) happens after `k + 1`
sleeps of 5 seconds, i.e. at `5 * (k + 1)` seconds elapsed since polling
began, and the `GetRepo` oracle is indexed by the attempt number.  Each
iteration first tests the fetch for success and only then tests
`time.Now().After(deadline)` — elapsed strictly greater than 60 seconds — so
the loop runs at most 13 attempts. -/
def forkPollLoop (getRepo : Nat → Option GiteaRepository × Option String)
    (owner name : String) (k : Nat) : Except String GitRepository :=
  let res := getRepo k
  if pollSuccess res then
    Except.ok (toGiteaRepo name (res.1.getD default))
  else if h : 60 < 5 * (k + 1) then
    Except.error ("Gave up waiting for Repository " ++ owner ++ "/" ++ name ++
      " to appear: " ++ errString res.2)
  else
    forkPollLoop getRepo owner name (k + 1)
termination_by 13 - k
decreasing_by simp_wf; omega

/-- Embedding of `ForkRepository` (gitea.go lines 201-235).  The initial
`CreateFork` result and the polling `GetRepo` oracle are parameters; the
destination owner falls back to the authenticated username when the
destination org is empty. -/
def forkRepository (createFork : Option GiteaRepository × Option String)
    (getRepo : Nat → Option GiteaRepository × Option String)
    (username originalOrg name destinationOrg : String) : Except String GitRepository :=
  match createFork.2 with
  | none => Except.ok (toGiteaRepo name (createFork.1.getD default))
  | some e =>
      let msg := if destinationOrg ≠ "" then " to " ++ destinationOrg else ""
      let owner := if destinationOrg = "" then username else destinationOrg
      if strContains e "try again later" then
        forkPollLoop getRepo owner name 0
      else
        Except.error ("Failed to fork repository " ++ originalOrg ++ "/" ++ name ++ msg ++
          " due to: " ++ e)

/-- Concrete repository appearing on the third poll attempt. -/
def wForkRepo : GiteaRepository := { Name := "forked", ID := 3 }

/-- Concrete `GetRepo` oracle: the fork appears on attempt 2 (0-based). -/
def wForkGetRepo : Nat → Option GiteaRepository × Option String :=
  fun k => if k = 2 then (some wForkRepo, none) else (none, some "404 not found")

/-! ### ListOpenPullRequests (C3) -/

/-- Backend-native branch info of a pull request (`gitea.Branch` as referenced
through `pr.Head`), restricted to the `Sha` read here. -/
structure GiteaPRBranch where
  Sha : String := ""
  deriving DecidableEq, Inhabited

/-- Backend-native pull request (`gitea.PullRequest`), restricted to the
fields read by `toPullRequest` / `updatePullRequest`. -/
structure GiteaPullRequest where
  Index : Int := 0
  URL : String := ""
  HTMLURL : String := ""
  Poster : GiteaUser := {}
  HasMerged : Bool := false
  Mergeable : Bool := false
  Merged : Option Int := none
  MergedCommitID : Option String := none
  Title : String := ""
  Body : String := ""
  State : String := ""
  Head : Option GiteaPRBranch := none
  deriving DecidableEq, Inhabited

/-- Neutral pull request model (`GitPullRequest`), restricted to the fields
set here. -/
structure GitPullRequest where
  URL : String := ""
  Author : Option GitUser := none
  Owner : String := ""
  Repo : String := ""
  Number : Option Int := none
  Mergeable : Option Bool := none
  Merged : Option Bool := none
  MergedAt : Option Int := none
  MergeCommitSHA : Option String := none
  Title : String := ""
  Body : String := ""
  State : Option String := none
  LastCommitSha : String := ""
  deriving DecidableEq, Inhabited

/-- Embedding of `updatePullRequest` (gitea.go lines 349-376): fills the
neutral pull request in place from the backend-native one. -/
def updatePullRequest (pr : GitPullRequest) (source : GiteaPullRequest) : GitPullRequest :=
  { pr with
    Author := some { Login := source.Poster.UserName }
    Merged := some source.HasMerged
    Mergeable := some source.Mergeable
    MergedAt := source.Merged
    MergeCommitSHA := source.MergedCommitID
    Title := source.Title
    Body := source.Body
    State := some source.State
    LastCommitSha := match source.Head with
      | some head => head.Sha
      | none => "" }

/-- Embedding of `toPullRequest` (gitea.go lines 378-388). -/
def toPullRequest (owner repo : String) (pr : GiteaPullRequest) : GitPullRequest :=
  updatePullRequest
    { URL := pr.URL, Owner := owner, Repo := repo, Number := some pr.Index } pr

/-- Embedding of the pagination loop of `ListOpenPullRequests` (gitea.go lines
394-406).  The client `ListRepoPullRequests` call is an oracle indexed by the
requested page number (`opt.Page` starts at its zero value 0 and is
incremented by 1 per iteration); the fixed page-size constant `pageSize` is
declared outside this file and is therefore a parameter.  Besides the
Go-visible pair the definition carries a ghost list of the page numbers
requested, in order.  `fuel` bounds the recursion; the pagination theorem
supplies enough fuel to reach the first short or empty page, so the fuel-0
fallback is never exercised there. -/
def listOpenPullRequestsLoop
    (fetch : Nat → List GiteaPullRequest × Option String)
    (owner repo : String) (pageSize : Nat) :
    Nat → List GitPullRequest → List Nat → Nat →
      (List GitPullRequest × Option String) × List Nat
  | _page, answer, trace, 0 => ((answer, none), trace)
  | page, answer, trace, fuel + 1 =>
    let res := fetch page
    let trace2 := trace ++ [page]
    match res.2 with
    | some e => ((answer, some e), trace2)
    | none =>
      let answer2 := answer ++ res.1.map (toPullRequest owner repo)
      if res.1.length < pageSize ∨ res.1.length = 0 then ((answer2, none), trace2)
      else listOpenPullRequestsLoop fetch owner repo pageSize (page + 1) answer2 trace2 fuel

/-- Embedding of `ListOpenPullRequests` (gitea.go lines 391-408): runs the
pagination loop from page 0 with an empty accumulator and projects away the
ghost trace. -/
def listOpenPullRequests (fetch : Nat → List GiteaPullRequest × Option String)
    (owner repo : String) (pageSize fuel : Nat) : List GitPullRequest × Option String :=
  (listOpenPullRequestsLoop fetch owner repo pageSize 0 [] [] fuel).1

/-- Concrete two-page oracle for the pagination witness: page 0 is full
(2 items at page size 2), page 1 is short (1 item). -/
def wPRFetch : Nat → List GiteaPullRequest × Option String :=
  fun page =>
    if page = 0 then ([{ Index := 1 }, { Index := 2 }], none)
    else if page = 1 then ([{ Index := 3 }], none)
    else ([], some "past the end")

/-! ### CreateWebHook (C4, C10) -/

/-- Backend-stored webhook (`gitea.Hook`), restricted to its `Config` map,
modelled as an association list. -/
structure GiteaHook where
  Config : List (String × String) := []
  deriving DecidableEq, Inhabited

/-- Go map indexing `m["k"]` on a string map: the stored value, or the zero
value `""` when the key is absent. -/
def mapGet (m : List (String × String)) (k : String) : String :=
  (m.lookup k).getD ""

/-- Neutral webhook arguments (`GitWebHookArguments`), restricted to the
fields read by `CreateWebHook`. -/
structure GitWebHookArguments where
  Owner : String := ""
  Repo : GitRepository := {}
  URL : String := ""
  Secret : String := ""
  deriving DecidableEq, Inhabited

/-- Embedding of `gitea.CreateHookOption` as built by `CreateWebHook`
(gitea.go lines 268-273); the Go field `Type` is spelled `Typ`. -/
structure CreateHookOption where
  Typ : String := ""
  Config : List (String × String) := []
  Events : List String := []
  Active : Bool := false
  deriving DecidableEq, Inhabited

/-- Config map built by `CreateWebHook` (gitea.go lines 261-267): url and
content type, plus the secret when one is supplied. -/
def webHookConfig (data : GitWebHookArguments) : List (String × String) :=
  [("url", data.URL), ("content_type", "json")] ++
    (if data.Secret = "" then [] else [("secret", data.Secret)])

/-- Hook as stored by the backend after a successful `CreateRepoHook` call. -/
def newWebHook (data : GitWebHookArguments) : GiteaHook :=
  { Config := webHookConfig data }

/-- Embedding of `CreateWebHook` (gitea.go lines 237-280).  The repository's
hook store is threaded as explicit state: `ListRepoHooks` returns `hooks`
(unless the `listErr` oracle says it fails) and a successful `CreateRepoHook`
appends the new hook (unless the `createErr` oracle says it fails).  The
result is the Go-visible error value paired with the post-call hook store.
The source's second precondition check re-tests `repo == ""` (gitea.go line
247), not the URL; the embedding mirrors that exactly.  The Go `%#v` dump of
the hook option in the create-failure message is abstracted away. -/
def createWebHook (username : String) (listErr createErr : Option String)
    (hooks : List GiteaHook) (data : GitWebHookArguments) :
    Except String Unit × List GiteaHook :=
  let owner := if data.Owner = "" then username else data.Owner
  let repo := data.Repo.Name
  if repo = "" then (Except.error "Missing property Repo", hooks)
  else
    let webhookUrl := data.URL
    if repo = "" then (Except.error "Missing property URL", hooks)
    else
      match listErr with
      | some e => (Except.error e, hooks)
      | none =>
          if hooks.any (fun hook => mapGet hook.Config "url" == webhookUrl) then
            (Except.ok (), hooks)
          else
            let hook : CreateHookOption :=
              { Typ := "gitea", Config := webHookConfig data,
                Events := ["create", "push", "pull_request"], Active := true }
            match createErr with
            | some e =>
                (Except.error ("Failed to create webhook for " ++ owner ++ "/" ++ repo ++
                  " due to: " ++ e), hooks)
            | none => (Except.ok (), hooks ++ [{ Config := hook.Config }])

/-- Concrete webhook arguments for the idempotence witness. -/
def wHookData : GitWebHookArguments :=
  { Owner := "own", Repo := { Name := "rep" }, URL := "http://hook.example/post", Secret := "" }

/-- Concrete webhook arguments with an empty target URL for the unreachable
URL-check witness. -/
def wEmptyUrlData : GitWebHookArguments :=
  { Owner := "", Repo := { Name := "rep" }, URL := "", Secret := "s3cret" }

/-! ### UpdateRelease (C5) -/

/-- Backend-native release (`gitea.Release`), restricted to the fields read
by `UpdateRelease`. -/
structure GiteaRelease where
  ID : Int := 0
  TagName : String := ""
  Title : String := ""
  Note : String := ""
  IsPrerelease : Bool := false
  URL : String := ""
  deriving DecidableEq, Inhabited

/-- Neutral release model (`GitRelease`), restricted to the fields read by
`UpdateRelease`. -/
structure GitRelease where
  Name : String := ""
  TagName : String := ""
  Body : String := ""
  PreRelease : Bool := false
  URL : String := ""
  deriving DecidableEq, Inhabited

/-- Embedding of `gitea.CreateReleaseOption`. -/
structure CreateReleaseOption where
  TagName : String := ""
  Title : String := ""
  Note : String := ""
  IsDraft : Bool := false
  IsPrerelease : Bool := false
  deriving DecidableEq, Inhabited

/-- Embedding of `gitea.EditReleaseOption` (optional booleans are pointers in
the Go SDK). -/
structure EditReleaseOption where
  TagName : String := ""
  Title : String := ""
  Note : String := ""
  IsDraft : Option Bool := none
  IsPrerelease : Option Bool := none
  deriving DecidableEq, Inhabited

/-- Backend mutation requested by `UpdateRelease`: either a release creation
or an edit of the release with the given id. -/
inductive ReleaseAction where
  | create (opt : CreateReleaseOption)
  | edit (id : Int) (opt : EditReleaseOption)
  deriving DecidableEq

/-- Embedding of `UpdateRelease` (gitea.go lines 643-686).  The
`GetReleaseByTag` result is an oracle triple; the definition returns the
backend mutation the code would request (the subsequent create/edit backend
call result only feeds the returned error and `releaseInfo.URL`, which no
claim inspects).  The guard mirrors
`err != nil && (resp == nil || resp.StatusCode != http.StatusNotFound)`. -/
def updateRelease (get : Option GiteaRelease × Option Nat × Option String)
    (releaseInfo : GitRelease) : Except String ReleaseAction :=
  let bad : Bool :=
    match get.2.2, get.2.1 with
    | some _, none => true
    | some _, some code => code != 404
    | none, _ => false
  if bad then Except.error ((get.2.2).getD "")
  else
    match get.1 with
    | none =>
        Except.ok (ReleaseAction.create
          { TagName := releaseInfo.TagName, Title := releaseInfo.Name,
            Note := releaseInfo.Body, IsDraft := false, IsPrerelease := false })
    | some release =>
        let e0 : EditReleaseOption :=
          { TagName := release.TagName, Title := release.Title, Note := release.Note,
            IsDraft := some false, IsPrerelease := some false }
        let e1 := if e0.Title = "" ∧ releaseInfo.Name ≠ "" then
            { e0 with Title := releaseInfo.Name } else e0
        let e2 := if e1.TagName = "" ∧ releaseInfo.TagName ≠ "" then
            { e1 with TagName := releaseInfo.TagName } else e1
        let e3 := if e2.Note = "" ∧ releaseInfo.Body ≠ "" then
            { e2 with Note := releaseInfo.Body } else e2
        Except.ok (ReleaseAction.edit release.ID e3)

/-- Edit option predicted by the specification's words: each of title, tag
name and note keeps the backend value unless that value is empty and the
caller supplies a non-empty one. -/
def updateReleaseEditSpec (release : GiteaRelease) (releaseInfo : GitRelease) :
    EditReleaseOption :=
  { TagName := if release.TagName = "" ∧ releaseInfo.TagName ≠ "" then
      releaseInfo.TagName else release.TagName
    Title := if release.Title = "" ∧ releaseInfo.Name ≠ "" then
      releaseInfo.Name else release.Title
    Note := if release.Note = "" ∧ releaseInfo.Body ≠ "" then
      releaseInfo.Body else release.Note
    IsDraft := some false
    IsPrerelease := some false }

/-- Concrete caller-supplied release info for the release witness. -/
def wReleaseInfo : GitRelease := { Name := "v1 title", TagName := "v1", Body := "caller notes" }

/-- Concrete backend release with an empty title and a populated note. -/
def wBackendRelease : GiteaRelease := { ID := 9, TagName := "v1", Title := "", Note := "existing note" }

/-! ### PullRequestLastCommitStatus (C7) -/

/-- Message returned by `PullRequestLastCommitStatus` when the pull request
has no last-commit SHA (gitea.go line 566); the Go `%#v` dump of the pull
request is abstracted away. -/
def missingShaMsg : String := "Missing String for LastCommitSha"

/-- Embedding of `PullRequestLastCommitStatus` (gitea.go lines 563-579).  The
client `ListStatuses` call is an oracle parameter; the loop over the results
returning the first non-empty state string is `List.find?`. -/
def pullRequestLastCommitStatus (listStatuses : List GiteaStatus × Option String)
    (pr : GitPullRequest) : String × Option String :=
  let ref := pr.LastCommitSha
  if ref = "" then ("", some missingShaMsg)
  else
    match listStatuses.2 with
    | some e => ("", some e)
    | none =>
        match listStatuses.1.find? (fun result => result.State != "") with
        | some result => (result.State, none)
        | none => ("", some (statusNotFoundMsg pr.Owner pr.Repo ref))

/-- Concrete status list whose first entry has an empty state. -/
def wStatuses : List GiteaStatus :=
  [{ State := "" }, { State := "success" }, { State := "failure" }]

/-- Concrete pull request with a last-commit SHA. -/
def wPRWithSha : GitPullRequest := { Owner := "own", Repo := "rep", LastCommitSha := "abc123" }

/-- Concrete pull request with no last-commit SHA. -/
def wPRNoSha : GitPullRequest := { Owner := "own", Repo := "rep", LastCommitSha := "" }

end Gits

namespace Gits

/-! ### Theorems for C1, C6, C8, C9 -/

/-- C1 (code bug evaluation): at org `"coolorg"`, name `"myrepo"`,
`private = false`, with an org-scoped create returning the org-side repository
and the user-scoped create returning the user-side repository,
`CreateRepository` issues BOTH backend create calls — the org-scoped one and
then, although the org is non-empty, the user-scoped one — and returns the
repository produced by the user-scoped call.  The claim states that with a
non-empty org the repository is created only under the org. -/
theorem createRepository_bug :
    createRepository (fun _ _ => (some wOrgSideRepo, none)) (fun _ => (some wUserSideRepo, none))
        "coolorg" "myrepo" false =
      (Except.ok (toGiteaRepo "myrepo" wUserSideRepo),
       [CreateCall.orgRepo "coolorg" { Name := "myrepo", Private := false },
        CreateCall.userRepo { Name := "myrepo", Private := false }]) := by
  rfl

/-- C6: when the backend `GetIssue` call fails (`err` non-nil), the adapter
returns `(nil, nil)` exactly when the response status is 404, and otherwise
propagates the error; absence and failure are distinct outcomes. -/
theorem getIssue_notFound_spec (serverURL org name : String) (i : Option GiteaIssue)
    (resp : Option Nat) (e : String) :
    getIssue serverURL (i, resp, some e) org name =
      (if resp = some 404 then (none, none) else (none, some e)) := by
  simp only [getIssue]

/-- C8: whenever the backend `ListStatuses` call fails, `ListCommitStatus`
returns the fixed "could not find a status" message built from org, repo and
sha alone — the right-hand side does not mention the backend error `e`, which
is therefore discarded regardless of the true cause of the failure. -/
theorem listCommitStatus_lossy (org repo sha : String) (results : List GiteaStatus)
    (e : String) :
    listCommitStatus (results, some e) org repo sha =
      ([], some (statusNotFoundMsg org repo sha)) := by
  simp only [listCommitStatus]

/-- C9 (counterexample): a successful `ListRepositories` call whose backend
listing contains a repository with an empty native `Name` returns a neutral
repository whose `Name` field is empty, contradicting the claim that `Name`
is always non-empty even when the backend omits it. -/
theorem listRepositories_empty_name_cex :
    (listRepositories ([wNoNameRepo], none) ([], none) "").1.map GitRepository.Name = [""]
    ∧ (listRepositories ([wNoNameRepo], none) ([], none) "").2 = none := by
  decide

/-- C9 (amended): every repository returned by a successful `ListRepositories`
call has its `Name` equal to the `Name` field of the corresponding
backend-native repository object (the code passes `repo.Name` to the
converter), in both the user-scoped and the org-scoped branch; hence `Name`
is non-empty exactly when the backend supplies a non-empty name. -/
theorem listRepositories_names (org : String) (myRepos orgRepos : List GiteaRepository) :
    (listRepositories (myRepos, none) (orgRepos, none) org).1.map GitRepository.Name =
      (if org = "" then myRepos else orgRepos).map GiteaRepository.Name := by
  by_cases h : org = "" <;>
    simp [listRepositories, h, toGiteaRepo, Function.comp]

/-! ### Theorems for C2 -/

/-- Helper: the poll loop started at `k` returns the repository of the first
successful attempt `i`, provided `i ≤ 12` and every attempt from `k` up to
`i` fails. -/
lemma forkPollLoop_first_success (getRepo : Nat → Option GiteaRepository × Option String)
    (owner name : String) (i : Nat) (hi : i ≤ 12)
    (hs : pollSuccess (getRepo i) = true) :
    ∀ n k, i - k = n → k ≤ i →
      (∀ j, k ≤ j → j < i → pollSuccess (getRepo j) = false) →
      forkPollLoop getRepo owner name k =
        Except.ok (toGiteaRepo name ((getRepo i).1.getD default)) := by
  intro n
  induction n with
  | zero =>
    intro k hn hk _
    have hki : k = i := by omega
    subst hki
    rw [forkPollLoop]
    simp [hs]
  | succ n ih =>
    intro k hn hk hprev
    have hklt : k < i := by omega
    have hfail : pollSuccess (getRepo k) = false := hprev k le_rfl hklt
    have hd : ¬ (60 < 5 * (k + 1)) := by omega
    rw [forkPollLoop]
    simp only [hfail, Bool.false_eq_true, if_false, hd, dite_false]
    exact ih (k + 1) (by omega) (by omega) (fun j hj1 hj2 => hprev j (by omega) hj2)

/-- Helper: when every attempt up to 12 fails, the poll loop started at
`k ≤ 12` gives up with the timeout error carrying the last seen fetch
error (attempt 12 is the first one strictly past the one-minute deadline). -/
lemma forkPollLoop_timeout (getRepo : Nat → Option GiteaRepository × Option String)
    (owner name : String)
    (hall : ∀ j, j ≤ 12 → pollSuccess (getRepo j) = false) :
    ∀ n k, 12 - k = n → k ≤ 12 →
      forkPollLoop getRepo owner name k =
        Except.error ("Gave up waiting for Repository " ++ owner ++ "/" ++ name ++
          " to appear: " ++ errString ((getRepo 12).2)) := by
  intro n
  induction n with
  | zero =>
    intro k hn hk
    have hki : k = 12 := by omega
    subst hki
    rw [forkPollLoop]
    have h60 : 60 < 5 * (12 + 1) := by omega
    simp [hall 12 le_rfl, h60]
  | succ n ih =>
    intro k hn hk
    have hklt : k < 12 := by omega
    have hd : ¬ (60 < 5 * (k + 1)) := by omega
    rw [forkPollLoop]
    simp only [hall k (by omega), Bool.false_eq_true, if_false, hd, dite_false]
    exact ih (k + 1) (by omega) (by omega)

/-- C2: when the initial fork request fails with an error containing the
retry-later signal, `ForkRepository` polls `GetRepo` once per fixed 5-second
interval: it returns the repository of the first attempt that finds the
repository with no error, and if no attempt up to the first one strictly past
the one-minute deadline (attempt index 12, elapsed 65s) succeeds, it returns
the timeout error carrying the last seen fetch error — whichever of the two
comes first. -/
theorem forkRepository_poll (getRepo : Nat → Option GiteaRepository × Option String)
    (r0 : Option GiteaRepository) (e : String)
    (username originalOrg name destinationOrg : String)
    (hretry : strContains e "try again later" = true) :
    (∃ i, i ≤ 12 ∧ pollSuccess (getRepo i) = true ∧
        (∀ j, j < i → pollSuccess (getRepo j) = false) ∧
        forkRepository (r0, some e) getRepo username originalOrg name destinationOrg =
          Except.ok (toGiteaRepo name ((getRepo i).1.getD default)))
    ∨ ((∀ j, j ≤ 12 → pollSuccess (getRepo j) = false) ∧
        forkRepository (r0, some e) getRepo username originalOrg name destinationOrg =
          Except.error ("Gave up waiting for Repository " ++
            (if destinationOrg = "" then username else destinationOrg) ++ "/" ++ name ++
            " to appear: " ++ errString ((getRepo 12).2))) := by
  have hfork : forkRepository (r0, some e) getRepo username originalOrg name destinationOrg =
      forkPollLoop getRepo (if destinationOrg = "" then username else destinationOrg) name 0 := by
    simp [forkRepository, hretry]
  by_cases hall : ∀ j, j ≤ 12 → pollSuccess (getRepo j) = false
  · right
    refine ⟨hall, ?_⟩
    rw [hfork]
    exact forkPollLoop_timeout getRepo _ name hall 12 0 rfl (by omega)
  · left
    push_neg at hall
    obtain ⟨j, hj, hjs⟩ := hall
    have hjsucc : pollSuccess (getRepo j) = true := by
      cases h : pollSuccess (getRepo j) with
      | false => exact absurd h hjs
      | true => rfl
    have hex : ∃ m, pollSuccess (getRepo m) = true := ⟨j, hjsucc⟩
    refine ⟨Nat.find hex, ?_, Nat.find_spec hex, ?_, ?_⟩
    · have := Nat.find_min' hex hjsucc
      omega
    · intro m hm
      have := Nat.find_min hex hm
      cases h : pollSuccess (getRepo m) with
      | false => rfl
      | true => exact absurd h this
    · rw [hfork]
      refine forkPollLoop_first_success getRepo _ name (Nat.find hex) ?_ (Nat.find_spec hex)
        (Nat.find hex) 0 rfl (Nat.zero_le _) ?_
      · have := Nat.find_min' hex hjsucc
        omega
      · intro m _ hm
        have := Nat.find_min hex hm
        cases h : pollSuccess (getRepo m) with
        | false => rfl
        | true => exact absurd h this

/-- C2 witness: the hypothesis and conclusion of the polling theorem at a
concrete retry-later error and a concrete oracle whose fork appears on the
third attempt. -/
theorem forkRepository_poll_witness :
    strContains "fork in progress, try again later" "try again later" = true ∧
    ((∃ i, i ≤ 12 ∧ pollSuccess (wForkGetRepo i) = true ∧
        (∀ j, j < i → pollSuccess (wForkGetRepo j) = false) ∧
        forkRepository (none, some "fork in progress, try again later") wForkGetRepo
            "jdoe" "origOrg" "myrepo" "" =
          Except.ok (toGiteaRepo "myrepo" ((wForkGetRepo i).1.getD default)))
    ∨ ((∀ j, j ≤ 12 → pollSuccess (wForkGetRepo j) = false) ∧
        forkRepository (none, some "fork in progress, try again later") wForkGetRepo
            "jdoe" "origOrg" "myrepo" "" =
          Except.error ("Gave up waiting for Repository " ++
            (if ("" : String) = "" then "jdoe" else "") ++ "/" ++ "myrepo" ++
            " to appear: " ++ errString ((wForkGetRepo 12).2)))) :=
  ⟨by decide,
   forkRepository_poll wForkGetRepo none "fork in progress, try again later"
     "jdoe" "origOrg" "myrepo" "" (by decide)⟩

/-! ### Theorems for C3 -/

/-- Helper: from any start page `page ≤ N`, where `N` is the first short or
empty page and all pages up to `N` fetch without error, the pagination loop
appends exactly the concatenation of pages `page..N` to the accumulator and
records exactly those page numbers, in order, in the ghost trace. -/
lemma listOpenPullRequestsLoop_go
    (fetch : Nat → List GiteaPullRequest × Option String)
    (owner repo : String) (pageSize N : Nat)
    (herr : ∀ i, i ≤ N → (fetch i).2 = none)
    (hfull : ∀ i, i < N → ¬((fetch i).1.length < pageSize ∨ (fetch i).1.length = 0))
    (hlast : (fetch N).1.length < pageSize ∨ (fetch N).1.length = 0) :
    ∀ fuel page answer trace, page ≤ N → N - page < fuel →
      listOpenPullRequestsLoop fetch owner repo pageSize page answer trace fuel =
        ((answer ++ ((List.range' page (N + 1 - page)).map
            (fun i => (fetch i).1.map (toPullRequest owner repo))).flatten, none),
         trace ++ List.range' page (N + 1 - page)) := by
  intro fuel
  induction fuel with
  | zero =>
    intro page answer trace hp hf
    omega
  | succ fuel ih =>
    intro page answer trace hp hf
    have he := herr page hp
    by_cases hpN : page = N
    · subst hpN
      have harith : page + 1 - page = 1 := by omega
      have hone : List.range' page 1 = [page] := rfl
      simp only [listOpenPullRequestsLoop, he, harith, hone]
      rw [if_pos hlast]
      simp
    · have hplt : page < N := by omega
      have hnf := hfull page hplt
      have hsplit : List.range' page (N + 1 - page) =
          page :: List.range' (page + 1) (N - page) := by
        have harith : N + 1 - page = (N - page) + 1 := by omega
        rw [harith, List.range'_succ]
      have harith2 : N + 1 - (page + 1) = N - page := by omega
      simp only [listOpenPullRequestsLoop, he]
      rw [if_neg hnf]
      rw [ih (page + 1) _ _ (by omega) (by omega), harith2, hsplit]
      simp [List.append_assoc]

/-- C3: for every successful paginated traversal — pages `0..N` fetch without
error, all pages before `N` are full (neither shorter than the page size nor
empty), and page `N` is short or empty — `ListOpenPullRequests` returns
exactly the concatenation of the converted pages in arrival order, the loop
stops exactly at page `N`, and the ghost trace shows every page number
`0..N` requested exactly once (the trace is `range (N+1)`, which has no
duplicates). -/
theorem listOpenPullRequests_pages
    (fetch : Nat → List GiteaPullRequest × Option String)
    (owner repo : String) (pageSize N fuel : Nat)
    (hfuel : N < fuel)
    (herr : ∀ i, i ≤ N → (fetch i).2 = none)
    (hfull : ∀ i, i < N → ¬((fetch i).1.length < pageSize ∨ (fetch i).1.length = 0))
    (hlast : (fetch N).1.length < pageSize ∨ (fetch N).1.length = 0) :
    listOpenPullRequestsLoop fetch owner repo pageSize 0 [] [] fuel =
      ((((List.range (N + 1)).map
          (fun i => (fetch i).1.map (toPullRequest owner repo))).flatten, none),
       List.range (N + 1))
    ∧ (List.range (N + 1)).Nodup := by
  constructor
  · have h := listOpenPullRequestsLoop_go fetch owner repo pageSize N herr hfull hlast
      fuel 0 [] [] (Nat.zero_le _) (by omega)
    simpa [List.range_eq_range'] using h
  · exact List.nodup_range _

/-- C3 witness: the pagination theorem applied to a concrete two-page oracle
at page size 2 with fuel 3; page 0 is full, page 1 is short, and the loop
returns their concatenation having requested pages 0 and 1 once each. -/
theorem listOpenPullRequests_pages_witness :
    (1 < 3 ∧ (∀ i, i ≤ 1 → (wPRFetch i).2 = none) ∧
      (∀ i, i < 1 → ¬((wPRFetch i).1.length < 2 ∨ (wPRFetch i).1.length = 0)) ∧
      ((wPRFetch 1).1.length < 2 ∨ (wPRFetch 1).1.length = 0)) ∧
    (listOpenPullRequestsLoop wPRFetch "own" "rep" 2 0 [] [] 3 =
        ((((List.range 2).map
            (fun i => (wPRFetch i).1.map (toPullRequest "own" "rep"))).flatten, none),
         List.range 2)
      ∧ (List.range 2).Nodup) :=
  ⟨⟨by decide, by decide, by decide, by decide⟩,
   listOpenPullRequests_pages wPRFetch "own" "rep" 2 1 3
     (by decide) (by decide) (by decide) (by decide)⟩

/-! ### Theorems for C4 and C10 -/

/-- Helper: the hook created by `CreateWebHook` stores the requested target
URL under the `url` key of its config map. -/
lemma newWebHook_url (data : GitWebHookArguments) :
    mapGet (newWebHook data).Config "url" = data.URL := rfl

/-- Helper: with the precondition checks passed and no backend failure, the
call is a no-op on a state that already has a hook for the URL. -/
lemma createWebHook_existing (u : String) (hooks : List GiteaHook)
    (data : GitWebHookArguments) (hrepo : data.Repo.Name ≠ "")
    (hc : hooks.any (fun hook => mapGet hook.Config "url" == data.URL) = true) :
    createWebHook u none none hooks data = (Except.ok (), hooks) := by
  simp [createWebHook, hrepo, hc]

/-- Helper: with the precondition checks passed and no backend failure, the
call appends exactly one hook on a state with no hook for the URL. -/
lemma createWebHook_fresh (u : String) (hooks : List GiteaHook)
    (data : GitWebHookArguments) (hrepo : data.Repo.Name ≠ "")
    (hc : hooks.any (fun hook => mapGet hook.Config "url" == data.URL) = false) :
    createWebHook u none none hooks data = (Except.ok (), hooks ++ [newWebHook data]) := by
  simp [createWebHook, hrepo, hc, newWebHook]

/-- Helper: a state ending in the hook just created for `data` passes the
idempotency scan for `data.URL`. -/
lemma createWebHook_any_after (hooks : List GiteaHook) (data : GitWebHookArguments) :
    (hooks ++ [newWebHook data]).any
      (fun hook => mapGet hook.Config "url" == data.URL) = true := by
  rw [List.any_eq_true]
  exact ⟨newWebHook data, by simp, by simp [newWebHook_url]⟩

/-- C4: with a non-empty repository name and no backend failures, (a) when
the repository already has a hook whose configured url equals the requested
URL the call returns success leaving the hook store unchanged, (b) when it
has none the call appends exactly the one new hook, (c) a second call with
the same arguments returns success and leaves the store of the first call
unchanged, and (d) starting from a store with no hook for the URL, two calls
leave exactly one more hook than before. -/
theorem createWebHook_idempotent (u : String) (hooks : List GiteaHook)
    (data : GitWebHookArguments) (hrepo : data.Repo.Name ≠ "") :
    ((∃ h ∈ hooks, mapGet h.Config "url" = data.URL) →
        createWebHook u none none hooks data = (Except.ok (), hooks))
    ∧ ((∀ h ∈ hooks, mapGet h.Config "url" ≠ data.URL) →
        createWebHook u none none hooks data = (Except.ok (), hooks ++ [newWebHook data]))
    ∧ (createWebHook u none none (createWebHook u none none hooks data).2 data =
        (Except.ok (), (createWebHook u none none hooks data).2))
    ∧ ((∀ h ∈ hooks, mapGet h.Config "url" ≠ data.URL) →
        (createWebHook u none none (createWebHook u none none hooks data).2 data).2.length =
          hooks.length + 1) := by
  have hof : ∀ hall : ∀ h ∈ hooks, mapGet h.Config "url" ≠ data.URL,
      hooks.any (fun hook => mapGet hook.Config "url" == data.URL) = false := by
    intro hall
    cases h : hooks.any (fun hook => mapGet hook.Config "url" == data.URL) with
    | false => rfl
    | true =>
        rw [List.any_eq_true] at h
        obtain ⟨x, hx, he⟩ := h
        rw [beq_iff_eq] at he
        exact absurd he (hall x hx)
  refine ⟨?_, ?_, ?_, ?_⟩
  · intro hex
    refine createWebHook_existing u hooks data hrepo ?_
    rw [List.any_eq_true]
    obtain ⟨h, hm, he⟩ := hex
    exact ⟨h, hm, by simp [he]⟩
  · intro hall
    exact createWebHook_fresh u hooks data hrepo (hof hall)
  · by_cases hc : hooks.any (fun hook => mapGet hook.Config "url" == data.URL) = true
    · rw [createWebHook_existing u hooks data hrepo hc]
      exact createWebHook_existing u hooks data hrepo hc
    · rw [Bool.not_eq_true] at hc
      rw [createWebHook_fresh u hooks data hrepo hc]
      exact createWebHook_existing u _ data hrepo (createWebHook_any_after hooks data)
  · intro hall
    rw [createWebHook_fresh u hooks data hrepo (hof hall)]
    rw [createWebHook_existing u _ data hrepo (createWebHook_any_after hooks data)]
    simp

/-- C4 witness: the idempotence theorem applied at concrete data starting
from an empty hook store: the first call creates one hook, the second call
returns success leaving the store unchanged, for a total of exactly one
hook. -/
theorem createWebHook_idempotent_witness :
    wHookData.Repo.Name ≠ ""
    ∧ createWebHook "u" none none [] wHookData =
        (Except.ok (), [] ++ [newWebHook wHookData])
    ∧ createWebHook "u" none none (createWebHook "u" none none [] wHookData).2 wHookData =
        (Except.ok (), (createWebHook "u" none none [] wHookData).2)
    ∧ (createWebHook "u" none none
          (createWebHook "u" none none [] wHookData).2 wHookData).2.length =
        ([] : List GiteaHook).length + 1 := by
  have h := createWebHook_idempotent "u" [] wHookData (by decide)
  exact ⟨by decide, h.2.1 (by simp), h.2.2.1, h.2.2.2 (by simp)⟩

/-- C10: with a non-empty repository name, `CreateWebHook` never returns the
`Missing property URL` precondition error — every non-ok outcome is a
propagated backend failure (the hook-listing error, or the wrapped
hook-creation error) — because the second precondition check re-tests the
repository name; in particular a call with an empty target URL proceeds to
list the hooks and, when none is configured for the empty URL, to create a
hook. -/
theorem createWebHook_url_check_unreachable (u : String) (hooks : List GiteaHook)
    (data : GitWebHookArguments) (listErr createErr : Option String)
    (hrepo : data.Repo.Name ≠ "") :
    ((createWebHook u listErr createErr hooks data).1 = Except.ok ()
      ∨ (∃ e, listErr = some e ∧
          (createWebHook u listErr createErr hooks data).1 = Except.error e)
      ∨ (∃ e, createErr = some e ∧
          (createWebHook u listErr createErr hooks data).1 =
            Except.error ("Failed to create webhook for " ++
              (if data.Owner = "" then u else data.Owner) ++ "/" ++ data.Repo.Name ++
              " due to: " ++ e)))
    ∧ (data.URL = "" → (∀ h ∈ hooks, mapGet h.Config "url" ≠ "") →
        createWebHook u none none hooks data = (Except.ok (), hooks ++ [newWebHook data])) := by
  constructor
  · cases hl : listErr with
    | some e =>
        right; left
        exact ⟨e, rfl, by simp [createWebHook, hrepo]⟩
    | none =>
        by_cases hc : hooks.any (fun hook => mapGet hook.Config "url" == data.URL) = true
        · left
          simp [createWebHook, hrepo, hc]
        · rw [Bool.not_eq_true] at hc
          cases hcr : createErr with
          | some e =>
              right; right
              exact ⟨e, rfl, by simp [createWebHook, hrepo, hc]⟩
          | none =>
              left
              simp [createWebHook, hrepo, hc]
  · intro hurl hall
    have hc : hooks.any (fun hook => mapGet hook.Config "url" == data.URL) = false := by
      cases h : hooks.any (fun hook => mapGet hook.Config "url" == data.URL) with
      | false => rfl
      | true =>
          rw [List.any_eq_true] at h
          obtain ⟨x, hx, he⟩ := h
          rw [beq_iff_eq] at he
          exact absurd (he.trans hurl) (hall x hx)
    simp [createWebHook, hrepo, hc, newWebHook]

/-- C10 witness: the theorem applied at concrete arguments with an empty
target URL and a non-empty repository name: the call succeeds and creates a
hook rather than returning the `Missing property URL` error. -/
theorem createWebHook_url_check_unreachable_witness :
    wEmptyUrlData.Repo.Name ≠ ""
    ∧ wEmptyUrlData.URL = ""
    ∧ createWebHook "u" none none [] wEmptyUrlData =
        (Except.ok (), [] ++ [newWebHook wEmptyUrlData]) := by
  have h := createWebHook_url_check_unreachable "u" [] wEmptyUrlData none none (by decide)
  exact ⟨by decide, rfl, h.2 rfl (by simp)⟩

/-! ### Theorems for C5 -/

/-- C5: under a get-by-tag result that lets the call proceed (no error, or a
404 not-found response), `UpdateRelease` (a) requests a creation built from
the caller-supplied fields when no release exists for the tag, and (b) when
release `r` exists, requests an edit of `r` whose title, tag name and note
each keep the backend value unless that value is empty and the caller
supplies a non-empty one — in particular a non-empty backend field is never
overwritten. -/
theorem updateRelease_fill_empty (resp : Option Nat) (err : Option String)
    (info : GitRelease) (r : GiteaRelease)
    (hok : err = none ∨ resp = some 404) :
    updateRelease (none, resp, err) info =
      Except.ok (ReleaseAction.create
        { TagName := info.TagName, Title := info.Name, Note := info.Body,
          IsDraft := false, IsPrerelease := false })
    ∧ updateRelease (some r, resp, err) info =
        Except.ok (ReleaseAction.edit r.ID (updateReleaseEditSpec r info))
    ∧ (r.TagName ≠ "" → (updateReleaseEditSpec r info).TagName = r.TagName)
    ∧ (r.Title ≠ "" → (updateReleaseEditSpec r info).Title = r.Title)
    ∧ (r.Note ≠ "" → (updateReleaseEditSpec r info).Note = r.Note) := by
  have hbad : ∀ rel : Option GiteaRelease,
      (match (rel, resp, err).2.2, (rel, resp, err).2.1 with
        | some _, none => true
        | some _, some code => code != 404
        | none, _ => false) = false := by
    intro rel
    rcases hok with he | hr
    · subst he
      rfl
    · subst hr
      cases err with
      | none => rfl
      | some e => rfl
  refine ⟨?_, ?_, ?_, ?_, ?_⟩
  · simp [updateRelease, hbad none]
  · simp only [updateRelease, hbad (some r), if_false, Bool.false_eq_true]
    by_cases h1 : r.Title = "" ∧ info.Name ≠ "" <;>
      by_cases h2 : r.TagName = "" ∧ info.TagName ≠ "" <;>
        by_cases h3 : r.Note = "" ∧ info.Body ≠ "" <;>
          simp [updateReleaseEditSpec, h1, h2, h3]
  · intro h
    simp [updateReleaseEditSpec, h]
  · intro h
    simp [updateReleaseEditSpec, h]
  · intro h
    simp [updateReleaseEditSpec, h]

/-- C5 witness: the theorem applied to a concrete backend release with an
empty title and a populated note, under a clean get result: the absent case
creates from caller fields, the present case edits release 9, and the
populated note is kept. -/
theorem updateRelease_fill_empty_witness :
    ((none : Option String) = none ∨ (none : Option Nat) = some 404)
    ∧ updateRelease (none, none, none) wReleaseInfo =
        Except.ok (ReleaseAction.create
          { TagName := wReleaseInfo.TagName, Title := wReleaseInfo.Name,
            Note := wReleaseInfo.Body, IsDraft := false, IsPrerelease := false })
    ∧ updateRelease (some wBackendRelease, none, none) wReleaseInfo =
        Except.ok (ReleaseAction.edit wBackendRelease.ID
          (updateReleaseEditSpec wBackendRelease wReleaseInfo))
    ∧ (updateReleaseEditSpec wBackendRelease wReleaseInfo).Note = wBackendRelease.Note := by
  have h := updateRelease_fill_empty none none wReleaseInfo wBackendRelease (Or.inl rfl)
  exact ⟨Or.inl rfl, h.1, h.2.1, h.2.2.2.2 (by decide)⟩

/-! ### Theorems for C7 -/

/-- Helper: `find?` returns the marked element of a decomposition whose
left part consists of elements failing the predicate. -/
lemma find?_append_first {α : Type} (p : α → Bool) :
    ∀ (l1 : List α) (r : α) (l2 : List α),
      (∀ x ∈ l1, p x = false) → p r = true →
      (l1 ++ r :: l2).find? p = some r := by
  intro l1
  induction l1 with
  | nil =>
    intro r l2 _ hr
    simpa using List.find?_cons_of_pos _ hr
  | cons a as ih =>
    intro r l2 hall hr
    have ha : ¬ p a = true := by simp [hall a (by simp)]
    rw [List.cons_append, List.find?_cons_of_neg _ ha]
    exact ih r l2 (fun x hx => hall x (by simp [hx])) hr

/-- C7: (a) with an empty last-commit SHA the call returns the missing-SHA
error whatever the backend would answer (the oracle is arbitrary); (b) with a
non-empty SHA and a successful backend listing, if every reported status has
an empty state string the call returns the could-not-find error, and if the
listing splits as `l1 ++ r :: l2` with every state in `l1` empty and `r`'s
state non-empty — i.e. `r` is the first non-empty status — the call returns
`r`'s state with no error. -/
theorem pullRequestLastCommitStatus_spec (results l1 l2 : List GiteaStatus)
    (r : GiteaStatus) (pr : GitPullRequest) (ls : List GiteaStatus × Option String) :
    (pr.LastCommitSha = "" →
        pullRequestLastCommitStatus ls pr = ("", some missingShaMsg))
    ∧ (pr.LastCommitSha ≠ "" →
        ((∀ x ∈ results, x.State = "") →
            pullRequestLastCommitStatus (results, none) pr =
              ("", some (statusNotFoundMsg pr.Owner pr.Repo pr.LastCommitSha)))
        ∧ (results = l1 ++ r :: l2 → (∀ x ∈ l1, x.State = "") → r.State ≠ "" →
            pullRequestLastCommitStatus (results, none) pr = (r.State, none))) := by
  refine ⟨?_, ?_⟩
  · intro h
    simp [pullRequestLastCommitStatus, h]
  · intro h
    refine ⟨?_, ?_⟩
    · intro hall
      have hf : results.find? (fun result => result.State != "") = none := by
        rw [List.find?_eq_none]
        intro x hx
        simp [hall x hx]
      simp [pullRequestLastCommitStatus, h, hf]
    · intro heq hempty hr
      subst heq
      have hf : (l1 ++ r :: l2).find? (fun result => result.State != "") = some r := by
        refine find?_append_first _ l1 r l2 ?_ (by simp [hr])
        intro x hx
        simp [hempty x hx]
      simp [pullRequestLastCommitStatus, h, hf]

/-- C7 witness: the theorem applied to a concrete status list whose first
entry has an empty state and whose second has state `success`: with no SHA
the missing-SHA error comes back untouched by the (failing) backend oracle,
and with a SHA the first non-empty state `success` is returned. -/
theorem pullRequestLastCommitStatus_spec_witness :
    wPRNoSha.LastCommitSha = ""
    ∧ pullRequestLastCommitStatus (wStatuses, some "backend down") wPRNoSha =
        ("", some missingShaMsg)
    ∧ wPRWithSha.LastCommitSha ≠ ""
    ∧ pullRequestLastCommitStatus (wStatuses, none) wPRWithSha =
        (({ State := "success" } : GiteaStatus).State, none) := by
  refine ⟨rfl, ?_, by decide, ?_⟩
  · exact (pullRequestLastCommitStatus_spec [] [] [] default wPRNoSha
      (wStatuses, some "backend down")).1 rfl
  · exact ((pullRequestLastCommitStatus_spec wStatuses [{ State := "" }]
      [{ State := "failure" }] { State := "success" } wPRWithSha (wStatuses, none)).2
      (by decide)).2 (by decide) (by decide) (by decide)

end Gits
